import Mathlib

/-!
Shallow embedding of the polygon-mesh core of the HybridCAD repository
(src/include/MeshManager.h, src/include/CADTypes.h, src/src/MeshManager.cpp).

Modelling conventions:
* C++ `double`/`float` scalars are modelled as `ℚ`; the one transcendental
  operation the code uses (`sqrt` inside normalisation) is passed in as an
  abstract function `sq : ℚ → ℚ`, since no verified property here depends on
  its values.
* C++ `int` ids and indices are modelled as `ℤ`.  Where the source compares a
  signed id against an unsigned `size_t` container size
  (`vertexId < m_vertices.size()`), the usual arithmetic conversion makes a
  negative id compare large, so the effective guard is
  `0 ≤ id ∧ id < size`; that is what the model uses.
* `std::unordered_set<int>` is modelled as `Finset ℤ`.
* Out-of-range `std::vector` indexing is undefined behaviour in the source;
  the model totalises it with a default value, and theorems that depend on
  indexing carry explicit in-range hypotheses.
-/

namespace HybridCAD

/-- `Point3D`/`Vector3D` from CADTypes.h (both are plain x/y/z triples). -/
structure Vec3 where
  x : ℚ
  y : ℚ
  z : ℚ
deriving DecidableEq

/-- `Triangle` from CADTypes.h. -/
structure Triangle where
  v0 : Vec3
  v1 : Vec3
  v2 : Vec3
  normal : Vec3
deriving DecidableEq

/-- Input `Face` from CADTypes.h (`vertexIndices` + `normal`). -/
structure GFace where
  vertexIndices : List ℤ
  normal : Vec3
deriving DecidableEq

/-- `Vertex` from MeshManager.h; the default constructor gives id `-1`,
`selected = false`, zero position and normal. -/
structure Vertex where
  position : Vec3
  normal : Vec3
  id : ℤ
  selected : Bool
deriving DecidableEq

/-- `Edge` from MeshManager.h. -/
structure Edge where
  vertex1 : ℤ
  vertex2 : ℤ
  id : ℤ
  selected : Bool
  adjacentFaces : List ℤ
deriving DecidableEq

/-- `MeshFace` from MeshManager.h. -/
structure MeshFace where
  vertices : List ℤ
  normal : Vec3
  id : ℤ
  selected : Bool
deriving DecidableEq

/-- The mutable state of a `MeshObject` (MeshManager.h, protected section):
element vectors, the three selection id-sets and the three id counters. -/
structure MeshObject where
  vertices : List Vertex
  edges : List Edge
  faces : List MeshFace
  selectedVertices : Finset ℤ
  selectedEdges : Finset ℤ
  selectedFaces : Finset ℤ
  nextVertexId : ℤ
  nextEdgeId : ℤ
  nextFaceId : ℤ
deriving DecidableEq

def zeroVec : Vec3 := ⟨0, 0, 0⟩

/-- Default-constructed `Vertex` (id -1). -/
def defVertex : Vertex := ⟨zeroVec, zeroVec, -1, false⟩

/-- Default-constructed `MeshFace` (id -1). -/
def defFace : MeshFace := ⟨[], zeroVec, -1, false⟩

/-- A `MeshObject` as produced by the constructor: empty vectors, empty
selection sets, all id counters 0. -/
def emptyMesh : MeshObject := ⟨[], [], [], ∅, ∅, ∅, 0, 0, 0⟩

/-! ## buildTopology (MeshManager.cpp lines 222-250) -/

/-- The unordered-pair test the edge-search loop performs:
`(edge.vertex1 == v1 && edge.vertex2 == v2) || (edge.vertex1 == v2 && edge.vertex2 == v1)`. -/
def samePairB (a1 a2 b1 b2 : ℤ) : Bool :=
  (a1 == b1 && a2 == b2) || (a1 == b2 && a2 == b1)

/-- The consecutive vertex pairs `(vertices[i], vertices[(i+1) % n])` of a
face ring, in loop order. -/
def ringPairsAux (first : ℤ) : List ℤ → List (ℤ × ℤ)
  | [] => []
  | [last] => [(last, first)]
  | a :: b :: rest => (a, b) :: ringPairsAux first (b :: rest)

def facePairs : List ℤ → List (ℤ × ℤ)
  | [] => []
  | v :: vs => ringPairsAux v (v :: vs)

/-- Inner edge-search loop of `buildTopology`: append `fid` to the first edge
matching the unordered pair `(v1, v2)`, or report `none` when no edge matches. -/
def addPairToEdges : List Edge → ℤ → ℤ → ℤ → Option (List Edge)
  | [], _, _, _ => none
  | e :: es, fid, v1, v2 =>
    if samePairB e.vertex1 e.vertex2 v1 v2 then
      some ({ e with adjacentFaces := e.adjacentFaces ++ [fid] } :: es)
    else
      match addPairToEdges es fid v1 v2 with
      | some es2 => some (e :: es2)
      | none => none

/-- One iteration of the pair loop: either extend the matching edge or append
a fresh edge carrying the next edge id. -/
def insertPair (acc : List Edge × ℤ) (fid v1 v2 : ℤ) : List Edge × ℤ :=
  match addPairToEdges acc.1 fid v1 v2 with
  | some es2 => (es2, acc.2)
  | none =>
    (acc.1 ++ [{ vertex1 := v1, vertex2 := v2, id := acc.2, selected := false,
                 adjacentFaces := [fid] }], acc.2 + 1)

/-- `MeshObject::buildTopology`: clear `m_edges`, then walk every face's ring
and union shared pairs, starting the local edge-id counter at 0. -/
def buildTopology (m : MeshObject) : MeshObject :=
  { m with edges :=
      (m.faces.foldl (fun acc f =>
        (facePairs f.vertices).foldl (fun a p => insertPair a f.id p.1 p.2) acc)
        ([], 0)).1 }

/-! ## Mesh creation (MeshManager.cpp lines 44-92) -/

/-- The vertex/face accumulation loop of `MeshObject::createFromTriangles`:
three fresh sequentially-numbered vertices per triangle and one face
`[vid, vid+1, vid+2]` per triangle carrying the triangle's normal. -/
def createTriLoop : List Triangle → ℤ → ℤ → List Vertex × List MeshFace
  | [], _, _ => ([], [])
  | t :: rest, vid, fid =>
    let tail := createTriLoop rest (vid + 3) (fid + 1)
    (⟨t.v0, zeroVec, vid, false⟩ :: ⟨t.v1, zeroVec, vid + 1, false⟩ ::
       ⟨t.v2, zeroVec, vid + 2, false⟩ :: tail.1,
     { vertices := [vid, vid + 1, vid + 2], normal := t.normal,
       id := fid, selected := false } :: tail.2)

/-- `MeshObject::createFromTriangles`: clear the element vectors, run the
triangle loop from ids 0, then `buildTopology`.  The selection sets and the
member id counters are untouched (the source uses local counters). -/
def createFromTriangles (m : MeshObject) (ts : List Triangle) : MeshObject :=
  let vf := createTriLoop ts 0 0
  buildTopology { m with vertices := vf.1, edges := [], faces := vf.2 }

/-- `MeshObject::createFromGeometry`: clear the element vectors, copy the
input vertices and faces with fresh sequential ids starting at 0, then
`buildTopology`.  No validation of the face indices is performed. -/
def createFromGeometry (m : MeshObject) (vs : List Vec3) (fs : List GFace) :
    MeshObject :=
  buildTopology
    { m with
      vertices := vs.enum.map (fun p => ⟨p.2, zeroVec, (p.1 : ℤ), false⟩),
      edges := [],
      faces := fs.enum.map
        (fun p => { vertices := p.2.vertexIndices, normal := p.2.normal,
                    id := (p.1 : ℤ), selected := false }) }

/-! ## Selection (MeshManager.cpp lines 94-141) -/

/-- `MeshObject::deselectAll`: clear the three id-sets and reset every
element's `selected` flag. -/
def deselectAll (m : MeshObject) : MeshObject :=
  { m with
    selectedVertices := ∅, selectedEdges := ∅, selectedFaces := ∅,
    vertices := m.vertices.map (fun v => { v with selected := false }),
    edges := m.edges.map (fun e => { e with selected := false }),
    faces := m.faces.map (fun f => { f with selected := false }) }

/-- `m_vertices[vertexId].selected = true` (in-range assignment by index). -/
def markVertex (vs : List Vertex) (n : ℕ) : List Vertex :=
  vs.set n { vs.getD n defVertex with selected := true }

def markEdge (es : List Edge) (n : ℕ) : List Edge :=
  es.set n { es.getD n ⟨-1, -1, -1, false, []⟩ with selected := true }

def markFace (fs : List MeshFace) (n : ℕ) : List MeshFace :=
  fs.set n { fs.getD n defFace with selected := true }

/-- `MeshObject::selectVertex`: optionally `deselectAll`, always insert the id
into the set, and set the flag only when `vertexId < m_vertices.size()` holds
under the signed/unsigned comparison (so only for `0 ≤ id < size`). -/
def selectVertex (m : MeshObject) (vertexId : ℤ) (addToSelection : Bool) :
    MeshObject :=
  let m1 := if addToSelection then m else deselectAll m
  let m2 := { m1 with selectedVertices := insert vertexId m1.selectedVertices }
  if 0 ≤ vertexId ∧ vertexId < (m2.vertices.length : ℤ) then
    { m2 with vertices := markVertex m2.vertices vertexId.toNat }
  else m2

/-- `MeshObject::selectEdge` (same shape as `selectVertex`). -/
def selectEdge (m : MeshObject) (edgeId : ℤ) (addToSelection : Bool) :
    MeshObject :=
  let m1 := if addToSelection then m else deselectAll m
  let m2 := { m1 with selectedEdges := insert edgeId m1.selectedEdges }
  if 0 ≤ edgeId ∧ edgeId < (m2.edges.length : ℤ) then
    { m2 with edges := markEdge m2.edges edgeId.toNat }
  else m2

/-- `MeshObject::selectFace` (same shape as `selectVertex`). -/
def selectFace (m : MeshObject) (faceId : ℤ) (addToSelection : Bool) :
    MeshObject :=
  let m1 := if addToSelection then m else deselectAll m
  let m2 := { m1 with selectedFaces := insert faceId m1.selectedFaces }
  if 0 ≤ faceId ∧ faceId < (m2.faces.length : ℤ) then
    { m2 with faces := markFace m2.faces faceId.toNat }
  else m2

/-! ## Validation and bounding box (MeshManager.cpp lines 143-153, 194-220) -/

/-- `MeshObject::isValid`: every vertex id referenced by any *face* must be in
range (`vertexId < 0 || vertexId >= m_vertices.size()` fails the scan).
Edges are not examined. -/
def isValid (m : MeshObject) : Bool :=
  m.faces.all (fun f => f.vertices.all
    (fun v => !(decide (v < 0) || decide ((m.vertices.length : ℤ) ≤ v))))

/-- `MeshObject::getBoundingBoxMin`: componentwise min over all vertex
positions starting from the first vertex; the origin for an empty mesh. -/
def getBoundingBoxMin (m : MeshObject) : Vec3 :=
  match m.vertices with
  | [] => zeroVec
  | v :: _ =>
    m.vertices.foldl
      (fun acc w => ⟨min acc.x w.position.x, min acc.y w.position.y,
                     min acc.z w.position.z⟩) v.position

/-- `MeshObject::getBoundingBoxMax` (componentwise max, origin when empty). -/
def getBoundingBoxMax (m : MeshObject) : Vec3 :=
  match m.vertices with
  | [] => zeroVec
  | v :: _ =>
    m.vertices.foldl
      (fun acc w => ⟨max acc.x w.position.x, max acc.y w.position.y,
                     max acc.z w.position.z⟩) v.position

/-! ## Normals (MeshManager.cpp lines 155-184 and 252-286) -/

/-- Position lookup `m_vertices[i].position`, totalised with the zero vector
(the source indexing is UB out of range; theorems restrict to in-range). -/
def getVertexPos (vs : List Vertex) (i : ℤ) : Vec3 :=
  ((vs.get? i.toNat).map (fun v => v.position)).getD zeroVec

/-- The cross product of the two edge vectors from a face's first three
vertices, exactly as `recalculateNormals` computes it. -/
def faceCross (vs : List Vertex) (f : MeshFace) : Vec3 :=
  let p0 := getVertexPos vs (f.vertices.getD 0 0)
  let p1 := getVertexPos vs (f.vertices.getD 1 0)
  let p2 := getVertexPos vs (f.vertices.getD 2 0)
  let e1 : Vec3 := ⟨p1.x - p0.x, p1.y - p0.y, p1.z - p0.z⟩
  let e2 : Vec3 := ⟨p2.x - p0.x, p2.y - p0.y, p2.z - p0.z⟩
  ⟨e1.y * e2.z - e1.z * e2.y, e1.z * e2.x - e1.x * e2.z,
   e1.x * e2.y - e1.y * e2.x⟩

/-- The normalise-in-place pattern: compute `length = sqrt (x² + y² + z²)` and
divide each component when `length > 0`, otherwise leave the vector alone. -/
def normalizeVec (sq : ℚ → ℚ) (v : Vec3) : Vec3 :=
  let length := sq (v.x * v.x + v.y * v.y + v.z * v.z)
  if 0 < length then ⟨v.x / length, v.y / length, v.z / length⟩ else v

/-- Face-normal pass of `recalculateNormals`: faces with at least three
vertices get the normalised cross product; shorter faces are untouched. -/
def computeFaceNormal (sq : ℚ → ℚ) (vs : List Vertex) (f : MeshFace) :
    MeshFace :=
  if 3 ≤ f.vertices.length then
    { f with normal := normalizeVec sq (faceCross vs f) }
  else f

/-- Vertex-normal computation of `MeshObject::updateNormals`: average the
normals of the faces whose ring contains the vertex id (each face counted
once thanks to the `break`), then normalise; vertices with no adjacent face
keep the zero normal the loop starts from. -/
def vertexNormalOf (sq : ℚ → ℚ) (faces : List MeshFace) (v : Vertex) : Vec3 :=
  let adj := faces.filter (fun f => f.vertices.contains v.id)
  if 0 < adj.length then
    let n : ℚ := (adj.length : ℚ)
    normalizeVec sq ⟨(adj.map (fun f => f.normal.x)).sum / n,
                     (adj.map (fun f => f.normal.y)).sum / n,
                     (adj.map (fun f => f.normal.z)).sum / n⟩
  else zeroVec

/-- `MeshObject::updateNormals`. -/
def updateNormals (sq : ℚ → ℚ) (m : MeshObject) : MeshObject :=
  { m with vertices :=
      m.vertices.map (fun v => { v with normal := vertexNormalOf sq m.faces v }) }

/-- `MeshObject::recalculateNormals`: face-normal pass, then `updateNormals`. -/
def recalculateNormals (sq : ℚ → ℚ) (m : MeshObject) : MeshObject :=
  updateNormals sq { m with faces := m.faces.map (computeFaceNormal sq m.vertices) }

/-! ## The MeshManager operators (MeshManager.cpp lines 336-416)

Every editing operator in the source is a placeholder returning `false`
without touching the mesh; the boolean mesh operators return `nullptr`.
They are modelled as state transformers returning the success flag with the
(unchanged) mesh. -/

def extrudeFaces (m : MeshObject) (faceIds : Finset ℤ) (direction : Vec3)
    (distance : ℚ) : Bool × MeshObject := (false, m)

def insetFaces (m : MeshObject) (faceIds : Finset ℤ) (insetAmount : ℚ) :
    Bool × MeshObject := (false, m)

def subdivideEdges (m : MeshObject) (edgeIds : Finset ℤ) : Bool × MeshObject :=
  (false, m)

def subdivideSelected (m : MeshObject) : Bool × MeshObject := (false, m)

def mergeVertices (m : MeshObject) (vertexIds : Finset ℤ) : Bool × MeshObject :=
  (false, m)

def dissolveVertices (m : MeshObject) (vertexIds : Finset ℤ) :
    Bool × MeshObject := (false, m)

def extrudeEdges (m : MeshObject) (edgeIds : Finset ℤ) (direction : Vec3)
    (distance : ℚ) : Bool × MeshObject := (false, m)

def bridgeEdgeLoops (m : MeshObject) (edgeIds1 edgeIds2 : Finset ℤ) :
    Bool × MeshObject := (false, m)

def smoothMesh (m : MeshObject) (iterations : ℤ) (factor : ℚ) :
    Bool × MeshObject := (false, m)

def decimateMesh (m : MeshObject) (ratio : ℚ) : Bool × MeshObject := (false, m)

def applySubdivisionSurface (m : MeshObject) (levels : ℤ) : Bool × MeshObject :=
  (false, m)

/-- `MeshManager::booleanUnion` returns `nullptr`. -/
def booleanUnion (meshA meshB : MeshObject) : Option MeshObject := none

/-- `MeshManager::booleanDifference` returns `nullptr`. -/
def booleanDifference (meshA meshB : MeshObject) : Option MeshObject := none

/-- `MeshManager::booleanIntersection` returns `nullptr`. -/
def booleanIntersection (meshA meshB : MeshObject) : Option MeshObject := none

/-! ## Selection-operation sequences (for the selection-sync invariant) -/

/-- One call into the selection API of `MeshObject`. -/
inductive SelOp where
  | selVertex (vertexId : ℤ) (addToSelection : Bool)
  | selEdge (edgeId : ℤ) (addToSelection : Bool)
  | selFace (faceId : ℤ) (addToSelection : Bool)
  | deselAll
deriving DecidableEq

def applySelOp (m : MeshObject) : SelOp → MeshObject
  | .selVertex i a => selectVertex m i a
  | .selEdge i a => selectEdge m i a
  | .selFace i a => selectFace m i a
  | .deselAll => deselectAll m

def applySelOps (m : MeshObject) (ops : List SelOp) : MeshObject :=
  ops.foldl applySelOp m

/-- The synchronisation the code actually maintains between an element vector
and its id-set: the flag stored at index `i` agrees with membership of `i`
in the set.  (The selection code addresses elements by using the id as the
vector index; in every mesh the creation functions build, an element's id
equals its index.) -/
def flagsAgreeV (vs : List Vertex) (s : Finset ℤ) : Prop :=
  ∀ i : ℕ, i < vs.length → (((vs.getD i defVertex).selected = true) ↔ (i : ℤ) ∈ s)

def flagsAgreeE (es : List Edge) (s : Finset ℤ) : Prop :=
  ∀ i : ℕ, i < es.length →
    (((es.getD i ⟨-1, -1, -1, false, []⟩).selected = true) ↔ (i : ℤ) ∈ s)

def flagsAgreeF (fs : List MeshFace) (s : Finset ℤ) : Prop :=
  ∀ i : ℕ, i < fs.length → (((fs.getD i defFace).selected = true) ↔ (i : ℤ) ∈ s)

/-- Flag/set agreement stated on a bare `Bool` list (proof device shared by
the three granularities). -/
def flagsBool (bs : List Bool) (s : Finset ℤ) : Prop :=
  ∀ i : ℕ, i < bs.length → (bs.getD i false = true ↔ (i : ℤ) ∈ s)

/-- Selection state and denormalised flags are in sync at all three
granularities (over the elements that exist). -/
def selectionSync (m : MeshObject) : Prop :=
  flagsAgreeV m.vertices m.selectedVertices ∧
  flagsAgreeE m.edges m.selectedEdges ∧
  flagsAgreeF m.faces m.selectedFaces

instance (m : MeshObject) : Decidable (selectionSync m) := by
  unfold selectionSync flagsAgreeV flagsAgreeE flagsAgreeF
  infer_instance

/-! ## Event-level view of buildTopology (proof device)

`buildTopology` processes, in order, one event per consecutive vertex pair of
each face's ring.  The characterisation theorems are proved against this
flattened event list. -/

structure EdgeEvent where
  fid : ℤ
  v1 : ℤ
  v2 : ℤ
deriving DecidableEq

def faceEvents (f : MeshFace) : List EdgeEvent :=
  (facePairs f.vertices).map (fun p => ⟨f.id, p.1, p.2⟩)

def meshEvents (faces : List MeshFace) : List EdgeEvent :=
  faces.flatMap faceEvents

def runEvents (L : List EdgeEvent) (acc : List Edge × ℤ) : List Edge × ℤ :=
  L.foldl (fun a ev => insertPair a ev.fid ev.v1 ev.v2) acc

/-- Face ids of the events matching an unordered pair, in order. -/
def matchFids (L : List EdgeEvent) (a b : ℤ) : List ℤ :=
  (L.filter (fun ev => samePairB a b ev.v1 ev.v2)).map EdgeEvent.fid

/-- How many times the unordered pair `(a, b)` occurs as a consecutive pair
in the rings of `faces` (counting repeats within one ring). -/
def ringOccurrences (faces : List MeshFace) (a b : ℤ) : ℕ :=
  ((meshEvents faces).filter (fun ev => samePairB a b ev.v1 ev.v2)).length

/-- Whether the unordered pair `(a, b)` occurs consecutively in `f`'s ring. -/
def pairInFace (a b : ℤ) (f : MeshFace) : Bool :=
  (facePairs f.vertices).any (fun p => samePairB a b p.1 p.2)

/-- No two edges of the list carry the same unordered vertex pair. -/
def distinctPairs (es : List Edge) : Prop :=
  es.Pairwise (fun e e2 => samePairB e.vertex1 e.vertex2 e2.vertex1 e2.vertex2 = false)

def pairKnownP (ps : List (ℤ × ℤ)) (a b : ℤ) : Bool :=
  ps.any (fun p => samePairB p.1 p.2 a b)

def edgePairs (es : List Edge) : List (ℤ × ℤ) :=
  es.map (fun e => (e.vertex1, e.vertex2))

/-- Closed form of the fresh edges `runEvents` appends: one edge per first
occurrence of a pair not already known, carrying all matching face ids. -/
def freshEdges : List EdgeEvent → List (ℤ × ℤ) → ℤ → List Edge
  | [], _, _ => []
  | ev :: rest, ps, nid =>
    if pairKnownP ps ev.v1 ev.v2 then freshEdges rest ps nid
    else
      { vertex1 := ev.v1, vertex2 := ev.v2, id := nid, selected := false,
        adjacentFaces := ev.fid :: matchFids rest ev.v1 ev.v2 } ::
      freshEdges rest (ps ++ [(ev.v1, ev.v2)]) (nid + 1)

/-- Closed form of the update `runEvents` applies to a pre-existing edge. -/
def updateOld (L : List EdgeEvent) (e : Edge) : Edge :=
  { e with adjacentFaces := e.adjacentFaces ++ matchFids L e.vertex1 e.vertex2 }

/-- Append `fid` to every edge matching the pair (at most one under
`distinctPairs`). -/
def mapAppend (es : List Edge) (fid a b : ℤ) : List Edge :=
  es.map (fun e =>
    if samePairB e.vertex1 e.vertex2 a b then
      { e with adjacentFaces := e.adjacentFaces ++ [fid] }
    else e)

/-! ## Concrete test data -/

/-- All face vertex references of the mesh are in range (the precondition
under which the source's normal recalculation avoids UB indexing). -/
def facesInRange (m : MeshObject) : Prop :=
  ∀ f ∈ m.faces, ∀ v ∈ f.vertices, 0 ≤ v ∧ v < (m.vertices.length : ℤ)

instance (m : MeshObject) : Decidable (facesInRange m) := by
  unfold facesInRange; infer_instance

/-- A single open triangle. -/
def tri0 : Triangle := ⟨⟨0, 0, 0⟩, ⟨1, 0, 0⟩, ⟨0, 1, 0⟩, ⟨0, 0, 1⟩⟩

/-- Mesh holding exactly one triangle face (ring length 3). -/
def triMesh : MeshObject := createFromTriangles emptyMesh [tri0]

/-- The unit-box data of `MeshManager::createPrimitiveMesh`
(PRIMITIVE_BOX case): 8 corners, 6 quad faces. -/
def boxVertices (dx : ℚ) : List Vec3 :=
  [⟨dx - 1/2, -1/2, -1/2⟩, ⟨dx + 1/2, -1/2, -1/2⟩,
   ⟨dx + 1/2, 1/2, -1/2⟩, ⟨dx - 1/2, 1/2, -1/2⟩,
   ⟨dx - 1/2, -1/2, 1/2⟩, ⟨dx + 1/2, -1/2, 1/2⟩,
   ⟨dx + 1/2, 1/2, 1/2⟩, ⟨dx - 1/2, 1/2, 1/2⟩]

def boxFaces : List GFace :=
  [⟨[0, 1, 2, 3], zeroVec⟩, ⟨[4, 7, 6, 5], zeroVec⟩,
   ⟨[0, 4, 5, 1], zeroVec⟩, ⟨[2, 6, 7, 3], zeroVec⟩,
   ⟨[0, 3, 7, 4], zeroVec⟩, ⟨[1, 5, 6, 2], zeroVec⟩]

/-- The axis-aligned unit cube at the origin (as `createPrimitiveMesh`
builds it). -/
def cubeA : MeshObject := createFromGeometry emptyMesh (boxVertices 0) boxFaces

/-- The same unit cube offset by (0.5, 0, 0). -/
def cubeB : MeshObject :=
  createFromGeometry emptyMesh (boxVertices (1/2)) boxFaces

/-- One vertex, no faces, one edge referencing the out-of-range vertex id 5.
Such a state is reachable through the public mutable accessor
`std::vector<Edge>& MeshObject::getEdges()`. -/
def badEdgeMesh : MeshObject :=
  { emptyMesh with
    vertices := [⟨zeroVec, zeroVec, 0, false⟩],
    edges := [⟨0, 5, 0, false, []⟩] }

/-- Result of `createFromGeometry` on one vertex and one face that references
the out-of-range vertex index 5. -/
def badGeomMesh : MeshObject :=
  createFromGeometry emptyMesh [zeroVec] [⟨[5], zeroVec⟩]

/-- A mesh with one vertex and nothing else (base state for the selection
counterexample). -/
def oneVertexMesh : MeshObject := createFromGeometry emptyMesh [zeroVec] []

/-! # Theorems -/

/-- Helper: an `all` over a mapped enumeration that ignores the counter is an
`all` over the underlying list. -/
theorem all_enumFrom_map {α β : Type} (g : ℕ × α → β) (p : β → Bool)
    (q : α → Bool) (hg : ∀ n a, p (g (n, a)) = q a) :
    ∀ (l : List α) (n : ℕ), ((List.enumFrom n l).map g).all p = l.all q := by
  intro l
  induction l with
  | nil => intro n; rfl
  | cons a l ih => intro n; simp [List.enumFrom, hg, ih]

/-- Helper: the inner bound check of `isValid` in propositional form. -/
theorem isValid_inner (len : ℕ) (v : ℤ) :
    (!(decide (v < 0) || decide ((len : ℤ) ≤ v))) = true ↔
      0 ≤ v ∧ v < (len : ℤ) := by
  simp [not_lt, not_le]

/-- C1 counterexample: `createFromGeometry` on one vertex and a face
referencing vertex index 5 does not fail and does mutate: the mesh now holds
the out-of-range face (and is invalid), while the claim demands an error with
no mutation. -/
theorem createFromGeometry_out_of_range_cex :
    badGeomMesh.faces.length = 1 ∧ badGeomMesh ≠ emptyMesh ∧
      isValid badGeomMesh = false := by decide

/-- C1 (amended): `createFromGeometry` performs no validation and cannot
fail; it always rebuilds the vertex and face lists with fresh sequential ids
0,1,2,…, and the rebuilt mesh passes `isValid` exactly when every face index
was in range. -/
theorem createFromGeometry_rebuild :
    ∀ (m : MeshObject) (vs : List Vec3) (fs : List GFace),
      (createFromGeometry m vs fs).vertices.length = vs.length ∧
      (∀ i : ℕ, i < vs.length →
        ((createFromGeometry m vs fs).vertices.getD i defVertex).id = (i : ℤ) ∧
        ((createFromGeometry m vs fs).vertices.getD i defVertex).position =
          vs.getD i zeroVec) ∧
      (createFromGeometry m vs fs).faces.length = fs.length ∧
      (∀ j : ℕ, j < fs.length →
        ((createFromGeometry m vs fs).faces.getD j defFace).id = (j : ℤ) ∧
        ((createFromGeometry m vs fs).faces.getD j defFace).vertices =
          (fs.getD j ⟨[], zeroVec⟩).vertexIndices) ∧
      (isValid (createFromGeometry m vs fs) = true ↔
        ∀ f ∈ fs, ∀ v ∈ f.vertexIndices, 0 ≤ v ∧ v < (vs.length : ℤ)) := by
  intro m vs fs
  have hv : (createFromGeometry m vs fs).vertices =
      vs.enum.map (fun p => (⟨p.2, zeroVec, (p.1 : ℤ), false⟩ : Vertex)) := rfl
  have hf : (createFromGeometry m vs fs).faces =
      fs.enum.map
        (fun p => (⟨p.2.vertexIndices, p.2.normal, (p.1 : ℤ), false⟩ : MeshFace)) := rfl
  refine ⟨by simp [hv], ?_, by simp [hf], ?_, ?_⟩
  · intro i hi
    have hi2 : i < (vs.enum.map
        (fun p => (⟨p.2, zeroVec, (p.1 : ℤ), false⟩ : Vertex))).length := by
      simpa using hi
    rw [hv, List.getD_eq_getElem _ _ hi2, List.getD_eq_getElem _ _ hi]
    simp
  · intro j hj
    have hj2 : j < (fs.enum.map
        (fun p => (⟨p.2.vertexIndices, p.2.normal, (p.1 : ℤ), false⟩ : MeshFace))).length := by
      simpa using hj
    rw [hf, List.getD_eq_getElem _ _ hj2, List.getD_eq_getElem _ _ hj]
    simp
  · have hlen : (createFromGeometry m vs fs).vertices.length = vs.length := by
      simp [hv]
    unfold isValid
    rw [hlen, hf]
    rw [show fs.enum = List.enumFrom 0 fs from rfl]
    rw [all_enumFrom_map _ _
      (fun f => f.vertexIndices.all
        (fun v => !(decide (v < 0) || decide ((vs.length : ℤ) ≤ v))))
      (fun n a => rfl)]
    simp only [List.all_eq_true, isValid_inner]

/-- C1 witness: the rebuild theorem applied to a concrete in-range input,
confirming the rebuilt mesh is valid there. -/
theorem createFromGeometry_rebuild_witness :
    isValid (createFromGeometry emptyMesh [zeroVec] [⟨[0], zeroVec⟩]) = true :=
  ((createFromGeometry_rebuild emptyMesh [zeroVec] [⟨[0], zeroVec⟩]).2.2.2.2).mpr
    (by decide)

/-- C2 counterexample: selecting the nonexistent vertex id 5 on a one-vertex
mesh puts 5 into the selected-vertex set while no vertex carries the flag, so
set membership and the per-element flag are not in sync for that id. -/
theorem selection_sync_cex :
    ¬ ((5 : ℤ) ∈ (applySelOps oneVertexMesh [.selVertex 5 false]).selectedVertices ↔
       ∃ v ∈ (applySelOps oneVertexMesh [.selVertex 5 false]).vertices,
         v.id = 5 ∧ v.selected = true) := by decide

/-- C3: each editing operator either mutates the mesh and succeeds with a
valid mesh, or fails leaving the mesh exactly as it was.  In the source all
eleven operators are placeholders that always take the failure branch with no
mutation, so the disjunction holds. -/
theorem operators_fail_without_mutation :
    ∀ (m : MeshObject) (s1 s2 : Finset ℤ) (dir : Vec3) (q r : ℚ) (k n : ℤ),
      (((extrudeFaces m s1 dir q).1 = true ∧
          isValid (extrudeFaces m s1 dir q).2 = true) ∨
        ((extrudeFaces m s1 dir q).1 = false ∧ (extrudeFaces m s1 dir q).2 = m)) ∧
      (((insetFaces m s1 q).1 = true ∧ isValid (insetFaces m s1 q).2 = true) ∨
        ((insetFaces m s1 q).1 = false ∧ (insetFaces m s1 q).2 = m)) ∧
      (((subdivideEdges m s1).1 = true ∧ isValid (subdivideEdges m s1).2 = true) ∨
        ((subdivideEdges m s1).1 = false ∧ (subdivideEdges m s1).2 = m)) ∧
      (((subdivideSelected m).1 = true ∧ isValid (subdivideSelected m).2 = true) ∨
        ((subdivideSelected m).1 = false ∧ (subdivideSelected m).2 = m)) ∧
      (((mergeVertices m s1).1 = true ∧ isValid (mergeVertices m s1).2 = true) ∨
        ((mergeVertices m s1).1 = false ∧ (mergeVertices m s1).2 = m)) ∧
      (((dissolveVertices m s1).1 = true ∧
          isValid (dissolveVertices m s1).2 = true) ∨
        ((dissolveVertices m s1).1 = false ∧ (dissolveVertices m s1).2 = m)) ∧
      (((extrudeEdges m s1 dir q).1 = true ∧
          isValid (extrudeEdges m s1 dir q).2 = true) ∨
        ((extrudeEdges m s1 dir q).1 = false ∧ (extrudeEdges m s1 dir q).2 = m)) ∧
      (((bridgeEdgeLoops m s1 s2).1 = true ∧
          isValid (bridgeEdgeLoops m s1 s2).2 = true) ∨
        ((bridgeEdgeLoops m s1 s2).1 = false ∧ (bridgeEdgeLoops m s1 s2).2 = m)) ∧
      (((smoothMesh m k q).1 = true ∧ isValid (smoothMesh m k q).2 = true) ∨
        ((smoothMesh m k q).1 = false ∧ (smoothMesh m k q).2 = m)) ∧
      (((decimateMesh m r).1 = true ∧ isValid (decimateMesh m r).2 = true) ∨
        ((decimateMesh m r).1 = false ∧ (decimateMesh m r).2 = m)) ∧
      (((applySubdivisionSurface m n).1 = true ∧
          isValid (applySubdivisionSurface m n).2 = true) ∨
        ((applySubdivisionSurface m n).1 = false ∧
          (applySubdivisionSurface m n).2 = m)) := by
  intro m s1 s2 dir q r k n
  exact ⟨Or.inr ⟨rfl, rfl⟩, Or.inr ⟨rfl, rfl⟩, Or.inr ⟨rfl, rfl⟩,
    Or.inr ⟨rfl, rfl⟩, Or.inr ⟨rfl, rfl⟩, Or.inr ⟨rfl, rfl⟩, Or.inr ⟨rfl, rfl⟩,
    Or.inr ⟨rfl, rfl⟩, Or.inr ⟨rfl, rfl⟩, Or.inr ⟨rfl, rfl⟩, Or.inr ⟨rfl, rfl⟩⟩

/-- C5 counterexample: a mesh whose (empty) face list references only
in-range ids but whose single edge references the out-of-range vertex id 5
still passes `isValid`, while the claim requires `isValid` to return false. -/
theorem isValid_ignores_edges_cex :
    isValid badEdgeMesh = true ∧
      (∃ e ∈ badEdgeMesh.edges,
        ¬(0 ≤ e.vertex2 ∧ e.vertex2 < (badEdgeMesh.vertices.length : ℤ))) := by
  decide

/-- C5 (amended): `isValid` returns true iff every vertex id referenced by
any *Face* is in range; Edge references are never examined, so replacing the
edge list with anything leaves the verdict unchanged. -/
theorem isValid_faces_only :
    ∀ m : MeshObject,
      (isValid m = true ↔
        ∀ f ∈ m.faces, ∀ v ∈ f.vertices, 0 ≤ v ∧ v < (m.vertices.length : ℤ)) ∧
      ∀ es : List Edge, isValid { m with edges := es } = isValid m := by
  intro m
  constructor
  · unfold isValid
    simp only [List.all_eq_true, isValid_inner]
  · intro es; rfl

/-- C5 witness: edge-independence of `isValid` applied at a concrete mesh
and edge list. -/
theorem isValid_faces_only_witness :
    isValid { oneVertexMesh with edges := [⟨0, 5, 0, false, []⟩] } =
      isValid oneVertexMesh :=
  (isValid_faces_only oneVertexMesh).2 [⟨0, 5, 0, false, []⟩]

/-- C7 counterexample: on the single-face triangle mesh, `extrudeFaces` with
distance 0 leaves the face count at 1 instead of adding the 3 side faces the
claim requires, and with distance 1 the bounding box does not grow. -/
theorem extrudeFaces_single_face_cex :
    (extrudeFaces triMesh {0} ⟨0, 0, 1⟩ 0).2.faces.length = 1 ∧
      ¬((extrudeFaces triMesh {0} ⟨0, 0, 1⟩ 0).2.faces.length =
          triMesh.faces.length + 3) ∧
      getBoundingBoxMax (extrudeFaces triMesh {0} ⟨0, 0, 1⟩ 1).2 =
        getBoundingBoxMax triMesh := by decide

/-- C7 (amended): `extrudeFaces` is a placeholder: for every mesh and every
argument tuple it reports failure and leaves the mesh — hence its bounding
box and face count — exactly unchanged. -/
theorem extrudeFaces_noop :
    ∀ (m : MeshObject) (faceIds : Finset ℤ) (dir : Vec3) (dist : ℚ),
      extrudeFaces m faceIds dir dist = (false, m) ∧
      getBoundingBoxMin (extrudeFaces m faceIds dir dist).2 =
        getBoundingBoxMin m ∧
      getBoundingBoxMax (extrudeFaces m faceIds dir dist).2 =
        getBoundingBoxMax m ∧
      (extrudeFaces m faceIds dir dist).2.faces.length = m.faces.length := by
  intro m faceIds dir dist
  exact ⟨rfl, rfl, rfl, rfl⟩

/-- C8 counterexample: the boolean difference of the two offset unit cubes is
`none` (the source returns `nullptr`), not the non-null half-cube mesh the
claim requires; the operand cubes themselves are real 8-vertex 6-face
meshes. -/
theorem booleanDifference_cubes_cex :
    booleanDifference cubeA cubeB = none ∧
      cubeA.vertices.length = 8 ∧ cubeA.faces.length = 6 ∧
      cubeB.vertices.length = 8 ∧ cubeB.faces.length = 6 := by decide

/-- C8 (amended): `booleanDifference` is a placeholder returning no mesh for
every pair of operands. -/
theorem booleanDifference_none :
    ∀ a b : MeshObject, booleanDifference a b = none := fun a b => rfl

/-! ## Selection-synchronisation lemmas (C2, C10) -/

theorem getD_set_self (l : List Bool) (n : ℕ) (h : n < l.length) :
    (l.set n true).getD n false = true := by
  rw [List.getD_eq_getElem _ _ (by simpa using h)]
  exact List.getElem_set_self (by simpa using h)

theorem getD_set_other (l : List Bool) (j n : ℕ) (h : j < l.length)
    (hne : n ≠ j) : (l.set n true).getD j false = l.getD j false := by
  rw [List.getD_eq_getElem _ _ (by simpa using h), List.getD_eq_getElem _ _ h]
  exact List.getElem_set_ne hne (by simpa using h)

theorem flagsBool_insert (bs : List Bool) (s : Finset ℤ) (i : ℤ)
    (h : flagsBool bs s) (hr : 0 ≤ i ∧ i < (bs.length : ℤ)) :
    flagsBool (bs.set i.toNat true) (insert i s) := by
  intro j hj
  rw [List.length_set] at hj
  rcases eq_or_ne j i.toNat with hji | hji
  · subst hji
    rw [getD_set_self _ _ hj]
    have hcast : ((i.toNat : ℕ) : ℤ) = i := by omega
    simp [hcast]
  · rw [getD_set_other _ _ _ hj (Ne.symm hji)]
    have hne : (j : ℤ) ≠ i := by omega
    rw [h j hj]
    simp [Finset.mem_insert, hne]

theorem flagsBool_insert_out (bs : List Bool) (s : Finset ℤ) (i : ℤ)
    (h : flagsBool bs s) (hr : ¬(0 ≤ i ∧ i < (bs.length : ℤ))) :
    flagsBool bs (insert i s) := by
  intro j hj
  have : (j : ℤ) ≠ i := by omega
  rw [h j hj]
  simp [Finset.mem_insert, this]

theorem getD_map_selV (vs : List Vertex) (i : ℕ) (h : i < vs.length) :
    (vs.map (fun v => v.selected)).getD i false = (vs.getD i defVertex).selected := by
  rw [List.getD_eq_getElem _ _ (by simpa using h), List.getD_eq_getElem _ _ h,
    List.getElem_map]

theorem getD_map_selE (es : List Edge) (i : ℕ) (h : i < es.length) :
    (es.map (fun e => e.selected)).getD i false =
      (es.getD i ⟨-1, -1, -1, false, []⟩).selected := by
  rw [List.getD_eq_getElem _ _ (by simpa using h), List.getD_eq_getElem _ _ h,
    List.getElem_map]

theorem getD_map_selF (fs : List MeshFace) (i : ℕ) (h : i < fs.length) :
    (fs.map (fun f => f.selected)).getD i false = (fs.getD i defFace).selected := by
  rw [List.getD_eq_getElem _ _ (by simpa using h), List.getD_eq_getElem _ _ h,
    List.getElem_map]

theorem flagsAgreeV_iff (vs : List Vertex) (s : Finset ℤ) :
    flagsAgreeV vs s ↔ flagsBool (vs.map (fun v => v.selected)) s := by
  unfold flagsAgreeV flagsBool
  constructor <;> intro h i hi
  · rw [List.length_map] at hi
    rw [getD_map_selV vs i hi]
    exact h i hi
  · rw [← getD_map_selV vs i hi]
    exact h i (by simpa using hi)

theorem flagsAgreeE_iff (es : List Edge) (s : Finset ℤ) :
    flagsAgreeE es s ↔ flagsBool (es.map (fun e => e.selected)) s := by
  unfold flagsAgreeE flagsBool
  constructor <;> intro h i hi
  · rw [List.length_map] at hi
    rw [getD_map_selE es i hi]
    exact h i hi
  · rw [← getD_map_selE es i hi]
    exact h i (by simpa using hi)

theorem flagsAgreeF_iff (fs : List MeshFace) (s : Finset ℤ) :
    flagsAgreeF fs s ↔ flagsBool (fs.map (fun f => f.selected)) s := by
  unfold flagsAgreeF flagsBool
  constructor <;> intro h i hi
  · rw [List.length_map] at hi
    rw [getD_map_selF fs i hi]
    exact h i hi
  · rw [← getD_map_selF fs i hi]
    exact h i (by simpa using hi)

theorem sync_deselectAll (m : MeshObject) : selectionSync (deselectAll m) := by
  refine ⟨?_, ?_, ?_⟩ <;>
    · intro i hi
      simp only [deselectAll] at hi ⊢
      rw [List.length_map] at hi
      rw [List.getD_eq_getElem _ _ (by simpa using hi), List.getElem_map]
      simp

theorem map_sel_markVertex (vs : List Vertex) (n : ℕ) :
    (markVertex vs n).map (fun v => v.selected) =
      (vs.map (fun v => v.selected)).set n true := by
  unfold markVertex
  rw [List.map_set]

theorem map_sel_markEdge (es : List Edge) (n : ℕ) :
    (markEdge es n).map (fun e => e.selected) =
      (es.map (fun e => e.selected)).set n true := by
  unfold markEdge
  rw [List.map_set]

theorem map_sel_markFace (fs : List MeshFace) (n : ℕ) :
    (markFace fs n).map (fun f => f.selected) =
      (fs.map (fun f => f.selected)).set n true := by
  unfold markFace
  rw [List.map_set]

theorem sync_selectVertexT (M : MeshObject) (i : ℤ) (h : selectionSync M) :
    selectionSync (selectVertex M i true) := by
  obtain ⟨hv, he, hf⟩ := h
  have key : selectVertex M i true =
      if 0 ≤ i ∧ i < (M.vertices.length : ℤ) then
        { M with selectedVertices := insert i M.selectedVertices,
                 vertices := markVertex M.vertices i.toNat }
      else { M with selectedVertices := insert i M.selectedVertices } := rfl
  rw [key]
  by_cases hc : 0 ≤ i ∧ i < (M.vertices.length : ℤ)
  · rw [if_pos hc]
    have hvert : flagsAgreeV (markVertex M.vertices i.toNat)
        (insert i M.selectedVertices) := by
      rw [flagsAgreeV_iff, map_sel_markVertex]
      exact flagsBool_insert _ _ _ ((flagsAgreeV_iff _ _).mp hv) (by simpa using hc)
    exact ⟨hvert, he, hf⟩
  · rw [if_neg hc]
    have hvert : flagsAgreeV M.vertices (insert i M.selectedVertices) := by
      rw [flagsAgreeV_iff]
      exact flagsBool_insert_out _ _ _ ((flagsAgreeV_iff _ _).mp hv)
        (by simpa using hc)
    exact ⟨hvert, he, hf⟩

theorem sync_selectEdgeT (M : MeshObject) (i : ℤ) (h : selectionSync M) :
    selectionSync (selectEdge M i true) := by
  obtain ⟨hv, he, hf⟩ := h
  have key : selectEdge M i true =
      if 0 ≤ i ∧ i < (M.edges.length : ℤ) then
        { M with selectedEdges := insert i M.selectedEdges,
                 edges := markEdge M.edges i.toNat }
      else { M with selectedEdges := insert i M.selectedEdges } := rfl
  rw [key]
  by_cases hc : 0 ≤ i ∧ i < (M.edges.length : ℤ)
  · rw [if_pos hc]
    have hedge : flagsAgreeE (markEdge M.edges i.toNat)
        (insert i M.selectedEdges) := by
      rw [flagsAgreeE_iff, map_sel_markEdge]
      exact flagsBool_insert _ _ _ ((flagsAgreeE_iff _ _).mp he) (by simpa using hc)
    exact ⟨hv, hedge, hf⟩
  · rw [if_neg hc]
    have hedge : flagsAgreeE M.edges (insert i M.selectedEdges) := by
      rw [flagsAgreeE_iff]
      exact flagsBool_insert_out _ _ _ ((flagsAgreeE_iff _ _).mp he)
        (by simpa using hc)
    exact ⟨hv, hedge, hf⟩

theorem sync_selectFaceT (M : MeshObject) (i : ℤ) (h : selectionSync M) :
    selectionSync (selectFace M i true) := by
  obtain ⟨hv, he, hf⟩ := h
  have key : selectFace M i true =
      if 0 ≤ i ∧ i < (M.faces.length : ℤ) then
        { M with selectedFaces := insert i M.selectedFaces,
                 faces := markFace M.faces i.toNat }
      else { M with selectedFaces := insert i M.selectedFaces } := rfl
  rw [key]
  by_cases hc : 0 ≤ i ∧ i < (M.faces.length : ℤ)
  · rw [if_pos hc]
    have hface : flagsAgreeF (markFace M.faces i.toNat)
        (insert i M.selectedFaces) := by
      rw [flagsAgreeF_iff, map_sel_markFace]
      exact flagsBool_insert _ _ _ ((flagsAgreeF_iff _ _).mp hf) (by simpa using hc)
    exact ⟨hv, he, hface⟩
  · rw [if_neg hc]
    have hface : flagsAgreeF M.faces (insert i M.selectedFaces) := by
      rw [flagsAgreeF_iff]
      exact flagsBool_insert_out _ _ _ ((flagsAgreeF_iff _ _).mp hf)
        (by simpa using hc)
    exact ⟨hv, he, hface⟩

theorem sync_applySelOp (m : MeshObject) (op : SelOp) (h : selectionSync m) :
    selectionSync (applySelOp m op) := by
  cases op with
  | selVertex i a =>
    cases a
    · exact sync_selectVertexT (deselectAll m) i (sync_deselectAll m)
    · exact sync_selectVertexT m i h
  | selEdge i a =>
    cases a
    · exact sync_selectEdgeT (deselectAll m) i (sync_deselectAll m)
    · exact sync_selectEdgeT m i h
  | selFace i a =>
    cases a
    · exact sync_selectFaceT (deselectAll m) i (sync_deselectAll m)
    · exact sync_selectFaceT m i h
  | deselAll => exact sync_deselectAll m

/-- C2 (amended): the synchronisation the code maintains is between set
membership and the flag stored at the *index* equal to the id, and it only
covers elements that exist: starting from any mesh whose flags and id-sets
agree over the existing elements, every sequence of selection operations
preserves that agreement.  (For an id that names no existing element the id
still enters the set with no flag set — see the counterexample.) -/
theorem selection_sync_preserved :
    ∀ (ops : List SelOp) (m : MeshObject),
      selectionSync m → selectionSync (applySelOps m ops) := by
  intro ops
  induction ops with
  | nil => intro m h; exact h
  | cons op rest ih =>
    intro m h
    exact ih (applySelOp m op) (sync_applySelOp m op h)

/-- C2 witness: the sync invariant holds concretely and is preserved through
a concrete operation sequence on the one-vertex mesh. -/
theorem selection_sync_preserved_witness :
    selectionSync oneVertexMesh ∧
      selectionSync (applySelOps oneVertexMesh
        [.selVertex 0 false, .selFace 2 true, .deselAll, .selVertex 0 true]) :=
  ⟨by decide, selection_sync_preserved _ oneVertexMesh (by decide)⟩

/-- C10: a non-additive selection at any granularity first clears all three
id-sets and all flags, then inserts the one id, so afterwards the union of
the three selection sets is exactly that singleton and the other two
granularities carry no set flag. -/
theorem select_nonadditive_resets :
    ∀ (m : MeshObject) (i : ℤ),
      ((selectVertex m i false).selectedVertices ∪
          (selectVertex m i false).selectedEdges ∪
          (selectVertex m i false).selectedFaces = {i} ∧
        (∀ e ∈ (selectVertex m i false).edges, e.selected = false) ∧
        (∀ f ∈ (selectVertex m i false).faces, f.selected = false)) ∧
      ((selectEdge m i false).selectedVertices ∪
          (selectEdge m i false).selectedEdges ∪
          (selectEdge m i false).selectedFaces = {i} ∧
        (∀ v ∈ (selectEdge m i false).vertices, v.selected = false) ∧
        (∀ f ∈ (selectEdge m i false).faces, f.selected = false)) ∧
      ((selectFace m i false).selectedVertices ∪
          (selectFace m i false).selectedEdges ∪
          (selectFace m i false).selectedFaces = {i} ∧
        (∀ v ∈ (selectFace m i false).vertices, v.selected = false) ∧
        (∀ e ∈ (selectFace m i false).edges, e.selected = false)) := by
  intro m i
  refine ⟨⟨?_, ?_, ?_⟩, ⟨?_, ?_, ?_⟩, ⟨?_, ?_, ?_⟩⟩ <;>
    simp [selectVertex, selectEdge, selectFace, deselectAll, markVertex,
      markEdge, markFace, apply_ite MeshObject.selectedVertices,
      apply_ite MeshObject.selectedEdges, apply_ite MeshObject.selectedFaces,
      apply_ite MeshObject.vertices, apply_ite MeshObject.edges,
      apply_ite MeshObject.faces, List.forall_mem_map]

/-- C10 witness: concrete instantiation on the one-vertex mesh. -/
theorem select_nonadditive_resets_witness :
    (selectVertex oneVertexMesh 0 false).selectedVertices ∪
      (selectVertex oneVertexMesh 0 false).selectedEdges ∪
      (selectVertex oneVertexMesh 0 false).selectedFaces = {0} :=
  (select_nonadditive_resets oneVertexMesh 0).1.1

/-! ## Normal recalculation (C6) -/

theorem getVertexPos_map_normal (vs : List Vertex) (g : Vertex → Vec3) (i : ℤ) :
    getVertexPos (vs.map (fun v => { v with normal := g v })) i =
      getVertexPos vs i := by
  unfold getVertexPos
  rw [List.get?_map]
  cases vs.get? i.toNat <;> rfl

theorem faceCross_congr (vs vs2 : List Vertex) (f : MeshFace)
    (hpos : ∀ i : ℤ, getVertexPos vs2 i = getVertexPos vs i) :
    faceCross vs2 f = faceCross vs f := by
  unfold faceCross
  rw [hpos, hpos, hpos]

theorem computeFaceNormal_stable (sq : ℚ → ℚ) (vs vs2 : List Vertex)
    (f : MeshFace)
    (hpos : ∀ i : ℤ, getVertexPos vs2 i = getVertexPos vs i) :
    computeFaceNormal sq vs2 (computeFaceNormal sq vs f) =
      computeFaceNormal sq vs f := by
  unfold computeFaceNormal
  by_cases h3 : 3 ≤ f.vertices.length
  · rw [if_pos h3, if_pos (by simpa using h3)]
    have hcross : faceCross vs2
        { f with normal := normalizeVec sq (faceCross vs f) } = faceCross vs f := by
      rw [show faceCross vs2 { f with normal := normalizeVec sq (faceCross vs f) } =
            faceCross vs2 f from rfl]
      exact faceCross_congr vs vs2 f hpos
    rw [hcross]
  · rw [if_neg h3, if_neg h3]

theorem updateNormals_fix (sq : ℚ → ℚ) (X : MeshObject)
    (h : X.vertices.map
        (fun v => { v with normal := vertexNormalOf sq X.faces v }) = X.vertices) :
    updateNormals sq X = X := by
  unfold updateNormals
  rw [h]

/-- C6: on a mesh whose face references are in range, re-running
`recalculateNormals` is the identity on the already-recalculated mesh (the
normals depend only on positions and rings, which the pass never changes),
and a face whose first three vertices give a zero cross product receives the
zero normal rather than an error. -/
theorem recalculateNormals_idempotent :
    ∀ (sq : ℚ → ℚ) (m : MeshObject), facesInRange m →
      (recalculateNormals sq (recalculateNormals sq m) =
          recalculateNormals sq m) ∧
      (∀ j : ℕ, j < m.faces.length →
        3 ≤ (m.faces.getD j defFace).vertices.length →
        faceCross m.vertices (m.faces.getD j defFace) = zeroVec →
        ((recalculateNormals sq m).faces.getD j defFace).normal = zeroVec) := by
  intro sq m _hrange
  have hv : (recalculateNormals sq m).vertices =
      m.vertices.map (fun v =>
        { v with normal :=
            vertexNormalOf sq (m.faces.map (computeFaceNormal sq m.vertices)) v }) :=
    rfl
  have hfaces : (recalculateNormals sq m).faces =
      m.faces.map (computeFaceNormal sq m.vertices) := rfl
  have hpos : ∀ i : ℤ,
      getVertexPos (recalculateNormals sq m).vertices i =
        getVertexPos m.vertices i := by
    intro i
    rw [hv]
    exact getVertexPos_map_normal _ _ i
  constructor
  · have hF : (recalculateNormals sq m).faces.map
        (computeFaceNormal sq (recalculateNormals sq m).vertices) =
          (recalculateNormals sq m).faces := by
      rw [hfaces, List.map_map]
      exact List.map_eq_map_iff.mpr
        (fun f _ => computeFaceNormal_stable sq m.vertices _ f hpos)
    show updateNormals sq
        { recalculateNormals sq m with
          faces := (recalculateNormals sq m).faces.map
            (computeFaceNormal sq (recalculateNormals sq m).vertices) } =
      recalculateNormals sq m
    rw [hF]
    apply updateNormals_fix
    rw [hv, List.map_map]
    exact List.map_eq_map_iff.mpr (fun v _ => rfl)
  · intro j hj h3 hcross
    have hj2 : j < ((recalculateNormals sq m).faces).length := by
      rw [hfaces]; simpa using hj
    have hface : (recalculateNormals sq m).faces.getD j defFace =
        computeFaceNormal sq m.vertices (m.faces.getD j defFace) := by
      rw [List.getD_eq_getElem _ _ hj2]
      simp only [hfaces]
      rw [List.getElem_map, List.getD_eq_getElem _ _ hj]
    rw [hface]
    have hcfn : computeFaceNormal sq m.vertices (m.faces.getD j defFace) =
        { m.faces.getD j defFace with
          normal := normalizeVec sq (faceCross m.vertices (m.faces.getD j defFace)) } := by
      unfold computeFaceNormal
      rw [if_pos h3]
    rw [hcfn, hcross]
    show normalizeVec sq zeroVec = zeroVec
    unfold normalizeVec
    simp [zeroVec]

/-- C6 witness: concrete idempotence on the single-triangle mesh with the
identity standing in for the abstract square root. -/
theorem recalculateNormals_idempotent_witness :
    facesInRange triMesh ∧
      recalculateNormals (fun q => q) (recalculateNormals (fun q => q) triMesh) =
        recalculateNormals (fun q => q) triMesh :=
  ⟨by decide, (recalculateNormals_idempotent (fun q => q) triMesh (by decide)).1⟩

/-! ## buildTopology characterisation (C4, C9) -/

theorem samePairB_iff (a1 a2 b1 b2 : ℤ) :
    samePairB a1 a2 b1 b2 = true ↔
      (a1 = b1 ∧ a2 = b2) ∨ (a1 = b2 ∧ a2 = b1) := by
  simp [samePairB]

theorem samePairB_refl (a b : ℤ) : samePairB a b a b = true := by
  simp [samePairB]

theorem samePairB_symm (a1 a2 b1 b2 : ℤ) (h : samePairB a1 a2 b1 b2 = true) :
    samePairB b1 b2 a1 a2 = true := by
  rw [samePairB_iff] at h ⊢
  tauto

theorem samePairB_symm_false (a1 a2 b1 b2 : ℤ)
    (h : samePairB a1 a2 b1 b2 = false) : samePairB b1 b2 a1 a2 = false := by
  rcases hb : samePairB b1 b2 a1 a2 with _ | _
  · rfl
  · rw [samePairB_symm _ _ _ _ hb] at h
    exact h.symm ▸ rfl

theorem samePairB_trans (a1 a2 b1 b2 c1 c2 : ℤ)
    (h1 : samePairB a1 a2 b1 b2 = true) (h2 : samePairB b1 b2 c1 c2 = true) :
    samePairB a1 a2 c1 c2 = true := by
  rw [samePairB_iff] at h1 h2 ⊢
  rcases h1 with ⟨h, h'⟩ | ⟨h, h'⟩ <;> rcases h2 with ⟨g, g'⟩ | ⟨g, g'⟩ <;>
    subst h <;> subst h' <;> tauto

theorem runEvents_append (L1 L2 : List EdgeEvent) (acc : List Edge × ℤ) :
    runEvents (L1 ++ L2) acc = runEvents L2 (runEvents L1 acc) := by
  unfold runEvents
  rw [List.foldl_append]

theorem buildTopology_edges (m : MeshObject) :
    (buildTopology m).edges = (runEvents (meshEvents m.faces) ([], 0)).1 := by
  suffices h : ∀ (faces : List MeshFace) (acc : List Edge × ℤ),
      faces.foldl (fun acc f => (facePairs f.vertices).foldl
        (fun a p => insertPair a f.id p.1 p.2) acc) acc =
      runEvents (meshEvents faces) acc by
    show (m.faces.foldl _ ([], 0)).1 = _
    rw [h]
  intro faces
  induction faces with
  | nil => intro acc; rfl
  | cons f rest ih =>
    intro acc
    show rest.foldl _ ((facePairs f.vertices).foldl _ acc) =
      runEvents (meshEvents (f :: rest)) acc
    rw [ih, show meshEvents (f :: rest) = faceEvents f ++ meshEvents rest from rfl,
      runEvents_append]
    congr 1
    unfold runEvents faceEvents
    rw [List.foldl_map]

theorem addPairToEdges_none_of (es : List Edge) (fid a b : ℤ)
    (h : ∀ e ∈ es, samePairB e.vertex1 e.vertex2 a b = false) :
    addPairToEdges es fid a b = none := by
  induction es with
  | nil => rfl
  | cons e es ih =>
    unfold addPairToEdges
    rw [if_neg (by simp [h e (List.mem_cons_self e es)]),
      ih (fun x hx => h x (List.mem_cons_of_mem e hx))]

theorem addPairToEdges_of_none (es : List Edge) (fid a b : ℤ)
    (h : addPairToEdges es fid a b = none) :
    ∀ e ∈ es, samePairB e.vertex1 e.vertex2 a b = false := by
  induction es with
  | nil => intro e he; cases he
  | cons e es ih =>
    unfold addPairToEdges at h
    by_cases hm : samePairB e.vertex1 e.vertex2 a b = true
    · rw [if_pos hm] at h; cases h
    · intro x hx
      rcases List.mem_cons.mp hx with rfl | hx2
      · exact Bool.not_eq_true _ ▸ (Bool.eq_false_iff.mpr (fun hc => hm hc))
      · rw [if_neg hm] at h
        rcases haux : addPairToEdges es fid a b with _ | es2
        · exact ih haux x hx2
        · rw [haux] at h; cases h

theorem mapAppend_cons (e : Edge) (es : List Edge) (fid a b : ℤ) :
    mapAppend (e :: es) fid a b =
      (if samePairB e.vertex1 e.vertex2 a b then
        { e with adjacentFaces := e.adjacentFaces ++ [fid] } else e) ::
      mapAppend es fid a b := rfl

theorem mapAppend_of_no_match (es : List Edge) (fid a b : ℤ)
    (hall : ∀ x ∈ es, samePairB x.vertex1 x.vertex2 a b = false) :
    mapAppend es fid a b = es := by
  unfold mapAppend
  conv_rhs => rw [← List.map_id es]
  exact List.map_eq_map_iff.mpr
    (fun x hx => by rw [if_neg (by simp [hall x hx])]; rfl)

theorem addPairToEdges_some (es : List Edge) (fid a b : ℤ) (es2 : List Edge)
    (hdist : distinctPairs es) (h : addPairToEdges es fid a b = some es2) :
    es2 = mapAppend es fid a b := by
  induction es generalizing es2 with
  | nil => cases h
  | cons e es ih =>
    unfold addPairToEdges at h
    rcases List.pairwise_cons.mp hdist with ⟨hhead, htail⟩
    by_cases hm : samePairB e.vertex1 e.vertex2 a b = true
    · rw [if_pos hm] at h
      have hrest : mapAppend es fid a b = es := by
        apply mapAppend_of_no_match
        intro x hx
        rcases hc : samePairB x.vertex1 x.vertex2 a b with _ | _
        · rfl
        · exact absurd (samePairB_trans _ _ _ _ _ _ hm
            (samePairB_symm _ _ _ _ hc)) (by simp [hhead x hx])
      rw [← Option.some.inj h, mapAppend_cons, if_pos hm, hrest]
    · rw [if_neg hm] at h
      rcases haux : addPairToEdges es fid a b with _ | es3
      · rw [haux] at h; cases h
      · rw [haux] at h
        rw [← Option.some.inj h, mapAppend_cons, if_neg hm, ih es3 htail haux]

theorem edgePairs_mapAppend (es : List Edge) (fid a b : ℤ) :
    edgePairs (mapAppend es fid a b) = edgePairs es := by
  unfold edgePairs mapAppend
  rw [List.map_map]
  exact List.map_eq_map_iff.mpr (fun e _ => by
    by_cases h : samePairB e.vertex1 e.vertex2 a b = true <;> simp [h])

theorem distinctPairs_iff_pairs (es : List Edge) :
    distinctPairs es ↔
      (edgePairs es).Pairwise (fun p q => samePairB p.1 p.2 q.1 q.2 = false) := by
  unfold distinctPairs edgePairs
  rw [List.pairwise_map]

theorem distinctPairs_mapAppend (es : List Edge) (fid a b : ℤ)
    (h : distinctPairs es) : distinctPairs (mapAppend es fid a b) := by
  rw [distinctPairs_iff_pairs, edgePairs_mapAppend]
  exact (distinctPairs_iff_pairs es).mp h

theorem pairKnownP_edgePairs (es : List Edge) (a b : ℤ) :
    pairKnownP (edgePairs es) a b =
      es.any (fun e => samePairB e.vertex1 e.vertex2 a b) := by
  induction es with
  | nil => rfl
  | cons e es ih =>
    show (samePairB e.vertex1 e.vertex2 a b || pairKnownP (edgePairs es) a b) = _
    rw [ih]
    rfl

theorem pairKnownP_append (ps1 ps2 : List (ℤ × ℤ)) (a b : ℤ) :
    pairKnownP (ps1 ++ ps2) a b = (pairKnownP ps1 a b || pairKnownP ps2 a b) := by
  unfold pairKnownP
  rw [List.any_append]

theorem matchFids_cons (ev : EdgeEvent) (L : List EdgeEvent) (a b : ℤ) :
    matchFids (ev :: L) a b =
      if samePairB a b ev.v1 ev.v2 then ev.fid :: matchFids L a b
      else matchFids L a b := by
  unfold matchFids
  rw [List.filter_cons]
  by_cases h : samePairB a b ev.v1 ev.v2 = true <;> simp [h]

theorem updateOld_nil (e : Edge) : updateOld [] e = e := by
  show { e with adjacentFaces := e.adjacentFaces ++ [] } = e
  rw [List.append_nil]

theorem updateOld_cons_match (L : List EdgeEvent) (ev : EdgeEvent) (e : Edge)
    (h : samePairB e.vertex1 e.vertex2 ev.v1 ev.v2 = true) :
    updateOld (ev :: L) e =
      updateOld L { e with adjacentFaces := e.adjacentFaces ++ [ev.fid] } := by
  unfold updateOld
  rw [matchFids_cons, if_pos h, List.append_cons]

theorem updateOld_cons_nomatch (L : List EdgeEvent) (ev : EdgeEvent) (e : Edge)
    (h : samePairB e.vertex1 e.vertex2 ev.v1 ev.v2 = false) :
    updateOld (ev :: L) e = updateOld L e := by
  unfold updateOld
  rw [matchFids_cons, if_neg (by simp [h])]

theorem freshEdges_cons_known (ev : EdgeEvent) (rest : List EdgeEvent)
    (ps : List (ℤ × ℤ)) (nid : ℤ) (h : pairKnownP ps ev.v1 ev.v2 = true) :
    freshEdges (ev :: rest) ps nid = freshEdges rest ps nid := by
  rw [freshEdges, if_pos h]

theorem freshEdges_cons_new (ev : EdgeEvent) (rest : List EdgeEvent)
    (ps : List (ℤ × ℤ)) (nid : ℤ) (h : pairKnownP ps ev.v1 ev.v2 = false) :
    freshEdges (ev :: rest) ps nid =
      { vertex1 := ev.v1, vertex2 := ev.v2, id := nid, selected := false,
        adjacentFaces := ev.fid :: matchFids rest ev.v1 ev.v2 } ::
      freshEdges rest (ps ++ [(ev.v1, ev.v2)]) (nid + 1) := by
  rw [freshEdges, if_neg (by simp [h])]

theorem runEvents_closed :
    ∀ (L : List EdgeEvent) (es : List Edge) (nid : ℤ), distinctPairs es →
      (runEvents L (es, nid)).1 =
        es.map (updateOld L) ++ freshEdges L (edgePairs es) nid := by
  intro L
  induction L with
  | nil =>
    intro es nid _
    show es = es.map (updateOld []) ++ freshEdges [] (edgePairs es) nid
    rw [show freshEdges [] (edgePairs es) nid = [] from rfl, List.append_nil]
    conv_lhs => rw [← List.map_id es]
    exact List.map_eq_map_iff.mpr (fun e _ => (updateOld_nil e).symm)
  | cons ev rest ih =>
    intro es nid hdist
    rcases haux : addPairToEdges es ev.fid ev.v1 ev.v2 with _ | es2
    · have hstep : insertPair (es, nid) ev.fid ev.v1 ev.v2 =
          (es ++ [⟨ev.v1, ev.v2, nid, false, [ev.fid]⟩], nid + 1) := by
        unfold insertPair
        simp only [haux]
      have hnone := addPairToEdges_of_none es ev.fid ev.v1 ev.v2 haux
      rw [show runEvents (ev :: rest) (es, nid) =
        runEvents rest (insertPair (es, nid) ev.fid ev.v1 ev.v2) from rfl, hstep]
      have hdist2 : distinctPairs
          (es ++ [⟨ev.v1, ev.v2, nid, false, [ev.fid]⟩]) := by
        unfold distinctPairs
        rw [List.pairwise_append]
        refine ⟨hdist, List.pairwise_singleton _ _, ?_⟩
        intro x hx y hy
        rw [List.mem_singleton] at hy
        subst hy
        exact hnone x hx
      rw [ih _ (nid + 1) hdist2]
      have hknown : pairKnownP (edgePairs es) ev.v1 ev.v2 = false := by
        rw [pairKnownP_edgePairs]
        exact List.any_eq_false.mpr (fun e he => by simp [hnone e he])
      have hmaps : es.map (updateOld rest) = es.map (updateOld (ev :: rest)) :=
        List.map_eq_map_iff.mpr
          (fun e he => (updateOld_cons_nomatch rest ev e (hnone e he)).symm)
      have hnew : updateOld rest (⟨ev.v1, ev.v2, nid, false, [ev.fid]⟩ : Edge) =
          { vertex1 := ev.v1, vertex2 := ev.v2, id := nid, selected := false,
            adjacentFaces := ev.fid :: matchFids rest ev.v1 ev.v2 } := rfl
      have hpairs : edgePairs (es ++ [⟨ev.v1, ev.v2, nid, false, [ev.fid]⟩]) =
          edgePairs es ++ [(ev.v1, ev.v2)] := by
        unfold edgePairs
        rw [List.map_append]
        rfl
      rw [hpairs, freshEdges_cons_new ev rest _ nid hknown, List.map_append,
        hmaps]
      simp [List.append_assoc, hnew]
    · have hstep : insertPair (es, nid) ev.fid ev.v1 ev.v2 = (es2, nid) := by
        unfold insertPair
        simp only [haux]
      rw [show runEvents (ev :: rest) (es, nid) =
        runEvents rest (insertPair (es, nid) ev.fid ev.v1 ev.v2) from rfl, hstep]
      have hes2 : es2 = mapAppend es ev.fid ev.v1 ev.v2 :=
        addPairToEdges_some _ _ _ _ _ hdist haux
      have hdist2 : distinctPairs es2 := by
        rw [hes2]
        exact distinctPairs_mapAppend es _ _ _ hdist
      rw [ih es2 nid hdist2]
      have hknown : pairKnownP (edgePairs es) ev.v1 ev.v2 = true := by
        rw [pairKnownP_edgePairs]
        rcases hany : es.any (fun e => samePairB e.vertex1 e.vertex2 ev.v1 ev.v2)
          with _ | _
        · have : addPairToEdges es ev.fid ev.v1 ev.v2 = none :=
            addPairToEdges_none_of es _ _ _
              (fun e he => by
                have := List.any_eq_false.mp hany e he
                simpa using this)
          rw [this] at haux
          cases haux
        · rfl
      rw [freshEdges_cons_known ev rest _ nid hknown, hes2, edgePairs_mapAppend]
      congr 1
      unfold mapAppend
      rw [List.map_map]
      exact List.map_eq_map_iff.mpr (fun e he => by
        by_cases hm : samePairB e.vertex1 e.vertex2 ev.v1 ev.v2 = true
        · show updateOld rest (if samePairB e.vertex1 e.vertex2 ev.v1 ev.v2 then
              { e with adjacentFaces := e.adjacentFaces ++ [ev.fid] } else e) =
            updateOld (ev :: rest) e
          rw [if_pos hm, updateOld_cons_match rest ev e hm]
        · show updateOld rest (if samePairB e.vertex1 e.vertex2 ev.v1 ev.v2 then
              { e with adjacentFaces := e.adjacentFaces ++ [ev.fid] } else e) =
            updateOld (ev :: rest) e
          rw [if_neg hm,
            updateOld_cons_nomatch rest ev e (by simpa using hm)])

theorem pairKnownP_single (p : ℤ × ℤ) (a b : ℤ) :
    pairKnownP [p] a b = samePairB p.1 p.2 a b := by
  unfold pairKnownP
  simp

theorem freshEdges_spec :
    ∀ (L : List EdgeEvent) (ps : List (ℤ × ℤ)) (nid : ℤ),
      ∀ e ∈ freshEdges L ps nid,
        (∃ ev ∈ L, ev.v1 = e.vertex1 ∧ ev.v2 = e.vertex2) ∧
        pairKnownP ps e.vertex1 e.vertex2 = false ∧
        e.adjacentFaces = matchFids L e.vertex1 e.vertex2 := by
  intro L
  induction L with
  | nil => intro ps nid e he; cases he
  | cons ev rest ih =>
    intro ps nid e he
    by_cases hk : pairKnownP ps ev.v1 ev.v2 = true
    · rw [freshEdges_cons_known ev rest ps nid hk] at he
      obtain ⟨⟨ev2, hev2, hv1, hv2⟩, hpk, hadj⟩ := ih ps nid e he
      refine ⟨⟨ev2, List.mem_cons_of_mem _ hev2, hv1, hv2⟩, hpk, ?_⟩
      rw [matchFids_cons]
      rcases hEB : samePairB e.vertex1 e.vertex2 ev.v1 ev.v2 with _ | _
      · rw [if_neg (by simp [hEB])]
        exact hadj
      · exfalso
        obtain ⟨p, hp, hmp⟩ := List.any_eq_true.mp hk
        have hpe : samePairB p.1 p.2 e.vertex1 e.vertex2 = true :=
          samePairB_trans _ _ _ _ _ _ hmp (samePairB_symm _ _ _ _ hEB)
        have : pairKnownP ps e.vertex1 e.vertex2 = true :=
          List.any_eq_true.mpr ⟨p, hp, hpe⟩
        rw [this] at hpk
        cases hpk
    · have hkf : pairKnownP ps ev.v1 ev.v2 = false := by
        simpa using hk
      rw [freshEdges_cons_new ev rest ps nid hkf] at he
      rcases List.mem_cons.mp he with rfl | htl
      · refine ⟨⟨ev, List.mem_cons_self _ _, rfl, rfl⟩, hkf, ?_⟩
        rw [matchFids_cons, if_pos (samePairB_refl _ _)]
      · obtain ⟨⟨ev2, hev2, hv1, hv2⟩, hpk, hadj⟩ :=
          ih (ps ++ [(ev.v1, ev.v2)]) (nid + 1) e htl
        rw [pairKnownP_append] at hpk
        rcases Bool.or_eq_false_iff.mp hpk with ⟨hpk1, hpk2⟩
        rw [pairKnownP_single] at hpk2
        refine ⟨⟨ev2, List.mem_cons_of_mem _ hev2, hv1, hv2⟩, hpk1, ?_⟩
        rw [matchFids_cons,
          if_neg (by simp [samePairB_symm_false _ _ _ _ hpk2])]
        exact hadj

theorem freshEdges_distinct :
    ∀ (L : List EdgeEvent) (ps : List (ℤ × ℤ)) (nid : ℤ),
      distinctPairs (freshEdges L ps nid) := by
  intro L
  induction L with
  | nil => intro ps nid; exact List.Pairwise.nil
  | cons ev rest ih =>
    intro ps nid
    by_cases hk : pairKnownP ps ev.v1 ev.v2 = true
    · rw [freshEdges_cons_known ev rest ps nid hk]
      exact ih ps nid
    · have hkf : pairKnownP ps ev.v1 ev.v2 = false := by simpa using hk
      rw [freshEdges_cons_new ev rest ps nid hkf]
      unfold distinctPairs
      rw [List.pairwise_cons]
      refine ⟨?_, ih _ _⟩
      intro e he
      obtain ⟨_, hpk, _⟩ := freshEdges_spec rest (ps ++ [(ev.v1, ev.v2)]) (nid + 1) e he
      rw [pairKnownP_append] at hpk
      rcases Bool.or_eq_false_iff.mp hpk with ⟨_, hpk2⟩
      rw [pairKnownP_single] at hpk2
      exact hpk2

theorem freshEdges_complete :
    ∀ (L : List EdgeEvent) (ps : List (ℤ × ℤ)) (nid : ℤ), ∀ ev ∈ L,
      pairKnownP ps ev.v1 ev.v2 = true ∨
      ∃ e ∈ freshEdges L ps nid,
        samePairB e.vertex1 e.vertex2 ev.v1 ev.v2 = true := by
  intro L
  induction L with
  | nil => intro ps nid ev hev; cases hev
  | cons ev0 rest ih =>
    intro ps nid ev hev
    by_cases hk : pairKnownP ps ev0.v1 ev0.v2 = true
    · rw [freshEdges_cons_known ev0 rest ps nid hk]
      rcases List.mem_cons.mp hev with rfl | htl
      · exact Or.inl hk
      · exact ih ps nid ev htl
    · have hkf : pairKnownP ps ev0.v1 ev0.v2 = false := by simpa using hk
      rw [freshEdges_cons_new ev0 rest ps nid hkf]
      rcases List.mem_cons.mp hev with rfl | htl
      · exact Or.inr ⟨_, List.mem_cons_self _ _, samePairB_refl _ _⟩
      · rcases ih (ps ++ [(ev0.v1, ev0.v2)]) (nid + 1) ev htl with hkn | ⟨e, he, hme⟩
        · rw [pairKnownP_append] at hkn
          rcases Bool.or_eq_true_iff.mp hkn with hkn1 | hkn2
          · exact Or.inl hkn1
          · rw [pairKnownP_single] at hkn2
            exact Or.inr ⟨_, List.mem_cons_self _ _, hkn2⟩
        · exact Or.inr ⟨e, List.mem_cons_of_mem _ he, hme⟩

theorem buildTopology_edges_closed (m : MeshObject) :
    (buildTopology m).edges = freshEdges (meshEvents m.faces) [] 0 := by
  rw [buildTopology_edges, runEvents_closed (meshEvents m.faces) [] 0
    List.Pairwise.nil]
  rfl

theorem mem_meshEvents (faces : List MeshFace) (ev : EdgeEvent) :
    ev ∈ meshEvents faces ↔
      ∃ f ∈ faces, ∃ p ∈ facePairs f.vertices, ev = ⟨f.id, p.1, p.2⟩ := by
  unfold meshEvents faceEvents
  rw [List.mem_flatMap]
  constructor
  · rintro ⟨f, hf, hev⟩
    obtain ⟨p, hp, hpe⟩ := List.mem_map.mp hev
    exact ⟨f, hf, p, hp, hpe.symm⟩
  · rintro ⟨f, hf, p, hp, hpe⟩
    exact ⟨f, hf, List.mem_map.mpr ⟨p, hp, hpe.symm⟩⟩

theorem pairInFace_iff (a b : ℤ) (f : MeshFace) :
    pairInFace a b f = true ↔
      ∃ p ∈ facePairs f.vertices, samePairB a b p.1 p.2 = true := by
  unfold pairInFace
  rw [List.any_eq_true]

theorem mem_matchFids (L : List EdgeEvent) (a b fid : ℤ) :
    fid ∈ matchFids L a b ↔
      ∃ ev ∈ L, samePairB a b ev.v1 ev.v2 = true ∧ ev.fid = fid := by
  unfold matchFids
  rw [List.mem_map]
  constructor
  · rintro ⟨ev, hev, hfid⟩
    obtain ⟨hmem, hmatch⟩ := List.mem_filter.mp hev
    exact ⟨ev, hmem, hmatch, hfid⟩
  · rintro ⟨ev, hmem, hmatch, hfid⟩
    exact ⟨ev, List.mem_filter.mpr ⟨hmem, hmatch⟩, hfid⟩

theorem length_matchFids (L : List EdgeEvent) (a b : ℤ) :
    (matchFids L a b).length =
      (L.filter (fun ev => samePairB a b ev.v1 ev.v2)).length := by
  unfold matchFids
  rw [List.length_map]

/-- C4: `buildTopology` yields exactly one Edge per unordered vertex pair
occurring consecutively in some face ring; each Edge's `adjacentFaces` holds
precisely the ids of the faces whose ring contains its pair (one entry per
ring occurrence); consequently under the manifold-occurrence hypothesis every
edge has 1 or 2 adjacent faces, and the single-triangle mesh has exactly 3
edges with 1 adjacent face each. -/
theorem buildTopology_char :
    (∀ m : MeshObject,
      distinctPairs (buildTopology m).edges ∧
      (∀ a b : ℤ,
        (∃ f ∈ m.faces, pairInFace a b f = true) ↔
        (∃ e ∈ (buildTopology m).edges,
          samePairB e.vertex1 e.vertex2 a b = true)) ∧
      (∀ e ∈ (buildTopology m).edges, ∀ fid : ℤ,
        fid ∈ e.adjacentFaces ↔
          ∃ f ∈ m.faces, f.id = fid ∧
            pairInFace e.vertex1 e.vertex2 f = true) ∧
      (∀ e ∈ (buildTopology m).edges,
        e.adjacentFaces.length =
          ringOccurrences m.faces e.vertex1 e.vertex2 ∧
        1 ≤ e.adjacentFaces.length) ∧
      ((∀ a b : ℤ, ringOccurrences m.faces a b ≤ 2) →
        ∀ e ∈ (buildTopology m).edges,
          e.adjacentFaces.length = 1 ∨ e.adjacentFaces.length = 2)) ∧
    (triMesh.edges.length = 3 ∧
      ∀ e ∈ triMesh.edges, e.adjacentFaces.length = 1) := by
  constructor
  · intro m
    have hE := buildTopology_edges_closed m
    have hadj : ∀ e ∈ (buildTopology m).edges,
        (∃ ev ∈ meshEvents m.faces, ev.v1 = e.vertex1 ∧ ev.v2 = e.vertex2) ∧
        e.adjacentFaces = matchFids (meshEvents m.faces) e.vertex1 e.vertex2 := by
      intro e he
      rw [hE] at he
      obtain ⟨hev, _, hadj⟩ := freshEdges_spec (meshEvents m.faces) [] 0 e he
      exact ⟨hev, hadj⟩
    have hlen : ∀ e ∈ (buildTopology m).edges,
        e.adjacentFaces.length =
          ringOccurrences m.faces e.vertex1 e.vertex2 ∧
        1 ≤ e.adjacentFaces.length := by
      intro e he
      obtain ⟨⟨ev, hev, hv1, hv2⟩, hadje⟩ := hadj e he
      constructor
      · rw [hadje, length_matchFids]
        rfl
      · rw [hadje]
        have hmemf : ev ∈ (meshEvents m.faces).filter
            (fun x => samePairB e.vertex1 e.vertex2 x.v1 x.v2) := by
          refine List.mem_filter.mpr ⟨hev, ?_⟩
          rw [← hv1, ← hv2]
          exact samePairB_refl _ _
        have hne : matchFids (meshEvents m.faces) e.vertex1 e.vertex2 ≠ [] := by
          unfold matchFids
          intro hc
          rw [List.map_eq_nil_iff] at hc
          rw [hc] at hmemf
          cases hmemf
        have := List.length_pos.mpr hne
        omega
    refine ⟨?_, ?_, ?_, hlen, ?_⟩
    · rw [hE]
      exact freshEdges_distinct _ [] 0
    · intro a b
      constructor
      · rintro ⟨f, hf, hpf⟩
        obtain ⟨p, hp, hm⟩ := (pairInFace_iff a b f).mp hpf
        have hev : (⟨f.id, p.1, p.2⟩ : EdgeEvent) ∈ meshEvents m.faces :=
          (mem_meshEvents m.faces _).mpr ⟨f, hf, p, hp, rfl⟩
        rcases freshEdges_complete (meshEvents m.faces) [] 0 _ hev with hkn | ⟨e, he, hme⟩
        · cases hkn
        · refine ⟨e, by rw [hE]; exact he, ?_⟩
          exact samePairB_trans _ _ _ _ _ _ hme (samePairB_symm _ _ _ _ hm)
      · rintro ⟨e, he, hm⟩
        obtain ⟨⟨ev, hev, hv1, hv2⟩, _⟩ := hadj e he
        obtain ⟨f, hf, p, hp, hpe⟩ := (mem_meshEvents m.faces ev).mp hev
        refine ⟨f, hf, (pairInFace_iff a b f).mpr ⟨p, hp, ?_⟩⟩
        have hev1 : ev.v1 = p.1 := by rw [hpe]
        have hev2 : ev.v2 = p.2 := by rw [hpe]
        have : samePairB a b e.vertex1 e.vertex2 = true :=
          samePairB_symm _ _ _ _ hm
        rw [← hev1, ← hev2, hv1, hv2]
        exact this
    · intro e he fid
      obtain ⟨_, hadje⟩ := hadj e he
      rw [hadje, mem_matchFids]
      constructor
      · rintro ⟨ev, hev, hmatch, hfid⟩
        obtain ⟨f, hf, p, hp, hpe⟩ := (mem_meshEvents m.faces ev).mp hev
        refine ⟨f, hf, ?_, ?_⟩
        · rw [← hfid, hpe]
        · refine (pairInFace_iff _ _ f).mpr ⟨p, hp, ?_⟩
          have hev1 : ev.v1 = p.1 := by rw [hpe]
          have hev2 : ev.v2 = p.2 := by rw [hpe]
          rw [← hev1, ← hev2]
          exact hmatch
      · rintro ⟨f, hf, hfid, hpf⟩
        obtain ⟨p, hp, hm⟩ := (pairInFace_iff _ _ f).mp hpf
        refine ⟨⟨f.id, p.1, p.2⟩,
          (mem_meshEvents m.faces _).mpr ⟨f, hf, p, hp, rfl⟩, hm, hfid⟩
    · intro hocc e he
      obtain ⟨h1, h2⟩ := hlen e he
      have h3 := hocc e.vertex1 e.vertex2
      omega
  · constructor
    · decide
    · decide

/-- C4 witness: the characterisation instantiated at the triangle mesh. -/
theorem buildTopology_char_witness :
    distinctPairs (buildTopology triMesh).edges ∧ triMesh.edges.length = 3 :=
  ⟨(buildTopology_char.1 triMesh).1, buildTopology_char.2.1⟩

/-! ## createFromTriangles (C9) -/

theorem createTriLoop_vertices_length (ts : List Triangle) :
    ∀ (vid fid : ℤ), (createTriLoop ts vid fid).1.length = 3 * ts.length := by
  induction ts with
  | nil => intro vid fid; rfl
  | cons t ts ih =>
    intro vid fid
    show (createTriLoop ts (vid + 3) (fid + 1)).1.length + 1 + 1 + 1 =
      3 * (t :: ts).length
    rw [ih]
    simp [List.length_cons]
    ring

theorem createTriLoop_faces_length (ts : List Triangle) :
    ∀ (vid fid : ℤ), (createTriLoop ts vid fid).2.length = ts.length := by
  induction ts with
  | nil => intro vid fid; rfl
  | cons t ts ih =>
    intro vid fid
    show (createTriLoop ts (vid + 3) (fid + 1)).2.length + 1 = (t :: ts).length
    rw [ih]
    rfl

theorem createTriLoop_vertex_ids (ts : List Triangle) :
    ∀ (vid fid : ℤ) (i : ℕ), i < 3 * ts.length →
      ((createTriLoop ts vid fid).1.getD i defVertex).id = vid + (i : ℤ) := by
  induction ts with
  | nil =>
    intro vid fid i hi
    simp at hi
  | cons t ts ih =>
    intro vid fid i hi
    rcases i with _ | _ | _ | i
    · simp [createTriLoop]
    · simp [createTriLoop]
    · simp [createTriLoop]
    · have hi2 : i < 3 * ts.length := by
        simp [List.length_cons] at hi
        omega
      have hstep : ((createTriLoop (t :: ts) vid fid).1.getD (i + 1 + 1 + 1)
          defVertex) = ((createTriLoop ts (vid + 3) (fid + 1)).1.getD i
          defVertex) := rfl
      rw [hstep, ih (vid + 3) (fid + 1) i hi2]
      push_cast
      ring

theorem createTriLoop_face_rings (ts : List Triangle) :
    ∀ (vid fid : ℤ) (j : ℕ), j < ts.length →
      ((createTriLoop ts vid fid).2.getD j defFace).vertices =
        [vid + 3 * (j : ℤ), vid + 3 * (j : ℤ) + 1, vid + 3 * (j : ℤ) + 2] := by
  induction ts with
  | nil =>
    intro vid fid j hj
    simp at hj
  | cons t ts ih =>
    intro vid fid j hj
    rcases j with _ | j
    · simp [createTriLoop]
    · have hj2 : j < ts.length := by
        simp [List.length_cons] at hj
        omega
      have hstep : ((createTriLoop (t :: ts) vid fid).2.getD (j + 1) defFace) =
          ((createTriLoop ts (vid + 3) (fid + 1)).2.getD j defFace) := rfl
      rw [hstep, ih (vid + 3) (fid + 1) j hj2]
      push_cast
      have h1 : vid + 3 + 3 * (j : ℤ) = vid + 3 * ((j : ℤ) + 1) := by ring
      rw [h1]

theorem meshEvents_createTriLoop (t : Triangle) (ts : List Triangle)
    (vid fid : ℤ) :
    meshEvents (createTriLoop (t :: ts) vid fid).2 =
      ⟨fid, vid, vid + 1⟩ :: ⟨fid, vid + 1, vid + 2⟩ :: ⟨fid, vid + 2, vid⟩ ::
      meshEvents (createTriLoop ts (vid + 3) (fid + 1)).2 := rfl

theorem events_lower_bound (ts : List Triangle) :
    ∀ (vid fid : ℤ), ∀ ev ∈ meshEvents (createTriLoop ts vid fid).2,
      vid ≤ ev.v1 ∧ vid ≤ ev.v2 := by
  induction ts with
  | nil => intro vid fid ev hev; cases hev
  | cons t ts ih =>
    intro vid fid ev hev
    rw [meshEvents_createTriLoop] at hev
    simp only [List.mem_cons] at hev
    rcases hev with rfl | rfl | rfl | htl
    · show vid ≤ vid ∧ vid ≤ vid + 1
      omega
    · show vid ≤ vid + 1 ∧ vid ≤ vid + 2
      omega
    · show vid ≤ vid + 2 ∧ vid ≤ vid
      omega
    · obtain ⟨h1, h2⟩ := ih (vid + 3) (fid + 1) ev htl
      omega

theorem events_pairwise (ts : List Triangle) :
    ∀ (vid fid : ℤ),
      (meshEvents (createTriLoop ts vid fid).2).Pairwise
        (fun x y => samePairB x.v1 x.v2 y.v1 y.v2 = false) := by
  induction ts with
  | nil => intro vid fid; exact List.Pairwise.nil
  | cons t ts ih =>
    intro vid fid
    rw [meshEvents_createTriLoop]
    have hne : ∀ (a1 a2 b1 b2 : ℤ),
        ¬((a1 = b1 ∧ a2 = b2) ∨ (a1 = b2 ∧ a2 = b1)) →
        samePairB a1 a2 b1 b2 = false := by
      intro a1 a2 b1 b2 h
      apply Bool.eq_false_iff.mpr
      rw [Ne, samePairB_iff]
      exact h
    refine List.Pairwise.cons ?_ (List.Pairwise.cons ?_
      (List.Pairwise.cons ?_ (ih (vid + 3) (fid + 1))))
    · intro y hy
      simp only [List.mem_cons] at hy
      rcases hy with rfl | rfl | htl
      · show samePairB vid (vid + 1) (vid + 1) (vid + 2) = false
        exact hne _ _ _ _ (by omega)
      · show samePairB vid (vid + 1) (vid + 2) vid = false
        exact hne _ _ _ _ (by omega)
      · obtain ⟨g1, g2⟩ := events_lower_bound ts (vid + 3) (fid + 1) y htl
        show samePairB vid (vid + 1) y.v1 y.v2 = false
        exact hne _ _ _ _ (by omega)
    · intro y hy
      simp only [List.mem_cons] at hy
      rcases hy with rfl | htl
      · show samePairB (vid + 1) (vid + 2) (vid + 2) vid = false
        exact hne _ _ _ _ (by omega)
      · obtain ⟨g1, g2⟩ := events_lower_bound ts (vid + 3) (fid + 1) y htl
        show samePairB (vid + 1) (vid + 2) y.v1 y.v2 = false
        exact hne _ _ _ _ (by omega)
    · intro y hy
      obtain ⟨g1, g2⟩ := events_lower_bound ts (vid + 3) (fid + 1) y hy
      show samePairB (vid + 2) vid y.v1 y.v2 = false
      exact hne _ _ _ _ (by omega)

theorem filter_single_of_pairwise (L : List EdgeEvent)
    (hP : L.Pairwise (fun x y => samePairB x.v1 x.v2 y.v1 y.v2 = false)) :
    ∀ ev ∈ L,
      (L.filter (fun x => samePairB ev.v1 ev.v2 x.v1 x.v2)).length = 1 := by
  induction L with
  | nil => intro ev hev; cases hev
  | cons a rest ih =>
    intro ev hev
    obtain ⟨hhead, htail⟩ := List.pairwise_cons.mp hP
    rcases List.mem_cons.mp hev with rfl | hev2
    · rw [List.filter_cons, if_pos (by simp [samePairB_refl])]
      have hnil : rest.filter (fun x => samePairB ev.v1 ev.v2 x.v1 x.v2) = [] :=
        List.filter_eq_nil_iff.mpr (fun x hx => by simp [hhead x hx])
      rw [hnil]
      rfl
    · have hne : samePairB ev.v1 ev.v2 a.v1 a.v2 = false :=
        samePairB_symm_false _ _ _ _ (hhead ev hev2)
      rw [List.filter_cons, if_neg (by simp [hne])]
      exact ih htail ev hev2

/-- C9: `createFromTriangles` creates three fresh vertices per triangle with
sequential ids 0..3n-1 and one face `[3j, 3j+1, 3j+2]` per triangle — no
deduplication across triangles — so every derived edge belongs to exactly one
face even when the triangles form a geometrically closed surface. -/
theorem createFromTriangles_char :
    ∀ (m : MeshObject) (ts : List Triangle),
      (createFromTriangles m ts).vertices.length = 3 * ts.length ∧
      (∀ i : ℕ, i < 3 * ts.length →
        ((createFromTriangles m ts).vertices.getD i defVertex).id = (i : ℤ)) ∧
      (createFromTriangles m ts).faces.length = ts.length ∧
      (∀ j : ℕ, j < ts.length →
        ((createFromTriangles m ts).faces.getD j defFace).vertices =
          [3 * (j : ℤ), 3 * (j : ℤ) + 1, 3 * (j : ℤ) + 2]) ∧
      (∀ e ∈ (createFromTriangles m ts).edges, e.adjacentFaces.length = 1) := by
  intro m ts
  have hv : (createFromTriangles m ts).vertices = (createTriLoop ts 0 0).1 := rfl
  have hf : (createFromTriangles m ts).faces = (createTriLoop ts 0 0).2 := rfl
  refine ⟨by rw [hv]; exact createTriLoop_vertices_length ts 0 0, ?_,
    by rw [hf]; exact createTriLoop_faces_length ts 0 0, ?_, ?_⟩
  · intro i hi
    rw [hv]
    have h := createTriLoop_vertex_ids ts 0 0 i hi
    simpa using h
  · intro j hj
    rw [hf]
    have h := createTriLoop_face_rings ts 0 0 j hj
    simpa using h
  · intro e he
    have hE : (createFromTriangles m ts).edges =
        freshEdges (meshEvents (createTriLoop ts 0 0).2) [] 0 := by
      have h2 := buildTopology_edges_closed { m with vertices := (createTriLoop ts 0 0).1, edges := ([] : List Edge), faces := (createTriLoop ts 0 0).2 }
      exact h2
    rw [hE] at he
    obtain ⟨⟨ev, hev, hv1, hv2⟩, _, hadj⟩ := freshEdges_spec _ [] 0 e he
    rw [hadj, length_matchFids, ← hv1, ← hv2]
    exact filter_single_of_pairwise _ (events_pairwise ts 0 0) ev hev

/-- C9 witness: concrete instantiation on a one-triangle list. -/
theorem createFromTriangles_char_witness :
    (createFromTriangles emptyMesh [tri0]).vertices.length = 3 * [tri0].length :=
  (createFromTriangles_char emptyMesh [tri0]).1

end HybridCAD
